import Mathlib

/-!
Verification of the sound-localization pipeline (OmarAshour-exe/sound-localization).

Shallow embedding of the feature-extraction and network-construction code in
src/main.py, src/audio_input.py and the offline block-processing loop in
src/analyze_offline.py.  Audio samples and all derived quantities are modelled
as real numbers; a stereo audio block is a list of (channel0, channel1) sample
pairs.  The module-level mutable state of src/main.py that the feature
extraction touches is exactly the global `last_feat`, modelled here as a single
real number threaded explicitly through each call.
-/

namespace SoundLoc

open Classical

noncomputable section

/-- Sampling rate in samples per second (src/audio_input.py, `SAMPLE_RATE = 16000`). -/
def SAMPLE_RATE : ℕ := 16000

/-- Samples per audio block (src/audio_input.py, `BLOCK_SIZE = 256`). -/
def BLOCK_SIZE : ℕ := 256

/-- Gain applied to channel 0 (src/main.py, `MAC_GAIN = 0.3`). -/
def MAC_GAIN : ℝ := 0.3

/-- Gain applied to channel 1 (src/main.py, `IPHONE_GAIN = 3.0`). -/
def IPHONE_GAIN : ℝ := 3.0

/-- Offset added to the ILD in dB (src/main.py, `ILD_OFFSET = 25.0`). -/
def ILD_OFFSET : ℝ := 25.0

/-- Energy threshold below which a block is treated as silence
(src/main.py, `ENERGY_THRESHOLD = 1e-5`). -/
def ENERGY_THRESHOLD : ℝ := 1e-5

/-- Initial value of the module-level `last_feat` global
(src/main.py line 45, `last_feat = np.array([0.0])`); the array holds the one
scalar 0.0. -/
def last_feat_init : ℝ := 0.0

/-- A stereo audio block: a list of (channel 0, channel 1) sample pairs.
In the source a block is a numpy array of shape (BLOCK_SIZE, 2). -/
abbrev Block := List (ℝ × ℝ)

/-- Mean of the squares of a list of samples (`np.mean(xs ** 2)` in the source). -/
def meanSq (xs : List ℝ) : ℝ := (xs.map fun x => x ^ 2).sum / xs.length

/-- Channel-0 energy of a block after applying `MAC_GAIN`, with the
`eps = 1e-8` regulariser added (src/main.py lines 84 and 90:
`mac = MAC_GAIN * mac; L = np.mean(mac ** 2) + eps`). -/
def energyL (b : Block) : ℝ := meanSq (b.map fun p => MAC_GAIN * p.1) + 1e-8

/-- Channel-1 energy of a block after applying `IPHONE_GAIN`, with `eps`
added (src/main.py lines 85 and 91). -/
def energyR (b : Block) : ℝ := meanSq (b.map fun p => IPHONE_GAIN * p.2) + 1e-8

/-- The ILD in dB computed by src/main.py lines 101-104:
`ild = 10 * np.log10(L / R); ild = ild + ILD_OFFSET`. -/
def ildOf (b : Block) : ℝ := 10 * Real.logb 10 (energyL b / energyR b) + ILD_OFFSET

/-- The result of the non-blocking queue read at the top of each tick
(src/main.py line 77, `block = audio_q.get_nowait()`), together with the
possibility that the fetched block is malformed so that processing it raises
(any exception in the `try` body lands in the bare `except Exception: pass`). -/
inductive QueueRead
  | empty
  | malformed
  | block (b : Block)

/-- One call of `feature_node_func` (src/main.py lines 54-115), as a pure
transition: given the queue read of this tick and the current value of the
global `last_feat`, return (returned feature value, new value of `last_feat`).

The source wraps the whole block computation in `try ... except Exception:
pass` and then returns `last_feat`; an empty queue (the `queue.Empty` raised
by `get_nowait`) or a malformed block therefore leaves `last_feat` unchanged
and returns it.  A well-formed block with total gained energy below
`ENERGY_THRESHOLD` returns `last_feat` early, unchanged; otherwise `last_feat`
is set to the freshly computed ILD and returned. -/
def feature_node_func : QueueRead → ℝ → ℝ × ℝ
  | .empty, s => (s, s)
  | .malformed, s => (s, s)
  | .block b, s =>
      if energyL b + energyR b < ENERGY_THRESHOLD then (s, s)
      else (ildOf b, ildOf b)

/-- `ild_to_angle` (src/main.py lines 118-143):
`ild_clipped = max(-40.0, min(40.0, float(ild))); angle_deg = (ild_clipped / 40.0) * 90.0`. -/
def ild_to_angle (ild : ℝ) : ℝ := max (-40.0) (min 40.0 ild) / 40.0 * 90.0

/-! ### The Nengo network built in src/main.py lines 154-306

The network construction is declarative: `nengo.Ensemble(...)` and
`nengo.Connection(...)` calls inside the `with model:` block.  We embed each
`Ensemble` call as a record of the keyword arguments the source passes, with
`none` for the optional `encoders` and `intercepts` keyword arguments of the
`nengo.Ensemble` constructor that the source leaves at their defaults, and the
connection graph as a list of edges between named components. -/

/-- Sign restriction for a 1-dimensional ensemble's encoders or intercepts
(all `+1` / biased positive, or all `-1` / biased negative). -/
inductive Sign
  | positive
  | negative
deriving DecidableEq

/-- Neuron model passed to an ensemble; every ensemble in the source passes
`nengo.LIF()`. -/
inductive NeuronType
  | LIF
deriving DecidableEq

/-- The arguments of one `nengo.Ensemble(...)` call in src/main.py.
`encoders` and `intercepts` are keyword arguments of the `nengo.Ensemble`
constructor that none of the calls in the source supplies; `none` records
that the argument is omitted (Nengo then samples default encoders, which for
one dimension are mixed random signs, and default intercepts). -/
structure Ensemble where
  n_neurons : ℕ
  dimensions : ℕ
  label : String
  neuron_type : NeuronType
  max_rates_lo : ℝ
  max_rates_hi : ℝ
  encoders : Option Sign
  intercepts : Option Sign

/-- `ild_snn` (src/main.py lines 175-183). -/
def ild_snn : Ensemble := ⟨200, 1, "ILD_SpikeLayer", .LIF, 100, 200, none, none⟩

/-- `on_neurons` (src/main.py lines 198-204). -/
def on_neurons : Ensemble := ⟨100, 1, "On_Neurons", .LIF, 100, 200, none, none⟩

/-- `off_neurons` (src/main.py lines 208-214). -/
def off_neurons : Ensemble := ⟨100, 1, "Off_Neurons", .LIF, 100, 200, none, none⟩

/-- `angle_snn` (src/main.py lines 229-235). -/
def angle_snn : Ensemble := ⟨150, 1, "Angle_Decoder", .LIF, 100, 200, none, none⟩

/-- The named components of the network graph: the nodes and ensembles created
in src/main.py lines 154-306. -/
inductive Component
  | feat_node
  | ild_snn
  | on_neurons
  | off_neurons
  | angle_snn
  | angle_output
  | angle_xy
deriving DecidableEq

/-- One `nengo.Connection(...)` call: source, target, the optional `function`
keyword argument (the source's only functional connection carries the scalar
map `lambda x: ild_to_angle(x[0])`, i.e. `ild_to_angle` on the single
represented dimension; `none` means the identity default), and the `synapse`
keyword argument. -/
structure Conn where
  source : Component
  target : Component
  func : Option (ℝ → ℝ)
  synapse : Option ℝ

/-- The seven `nengo.Connection(...)` calls of src/main.py, in source order
(lines 187, 219, 220, 240, 241, 255-260, 306). -/
def modelConnections : List Conn :=
  [ ⟨.feat_node, .ild_snn, none, some 0.01⟩,
    ⟨.ild_snn, .on_neurons, none, some 0.01⟩,
    ⟨.ild_snn, .off_neurons, none, some 0.01⟩,
    ⟨.on_neurons, .angle_snn, none, some 0.01⟩,
    ⟨.off_neurons, .angle_snn, none, some 0.01⟩,
    ⟨.angle_snn, .angle_output, some ild_to_angle, some 0.05⟩,
    ⟨.angle_output, .angle_xy, none, some 0.05⟩ ]

/-! ### The offline block-processing loop of src/analyze_offline.py

The loop (lines 55-96) re-implements the ILD computation of
`feature_node_func` on each `BLOCK_SIZE`-sample block of the recording,
skipping silent blocks, and appends to four result lists. -/

/-- Channel-0 energy as computed in the offline loop
(src/analyze_offline.py lines 62-70: `mac = MAC_GAIN * mac; L = np.mean(mac ** 2) + eps`). -/
def offlineL (b : Block) : ℝ := meanSq (b.map fun p => MAC_GAIN * p.1) + 1e-8

/-- Channel-1 energy as computed in the offline loop
(src/analyze_offline.py lines 63-71). -/
def offlineR (b : Block) : ℝ := meanSq (b.map fun p => IPHONE_GAIN * p.2) + 1e-8

/-- The ILD recorded by the offline loop (src/analyze_offline.py lines 78-79:
`ild = 10 * np.log10(L / R); ild = ild + ILD_OFFSET`). -/
def offlineIld (b : Block) : ℝ :=
  10 * Real.logb 10 (offlineL b / offlineR b) + ILD_OFFSET

/-- The angle recorded by the offline loop (src/analyze_offline.py line 81:
`angle = ild_to_angle(ild)`). -/
def offlineAngle (b : Block) : ℝ := ild_to_angle (offlineIld b)

/-- Direction-classification threshold in dB
(src/analyze_offline.py, `THRESHOLD_DB = 3.0`). -/
def THRESHOLD_DB : ℝ := 3.0

/-- The direction recorded by the offline loop (src/analyze_offline.py lines
84-89: `-1` if `ild > THRESHOLD_DB`, `+1` if `ild < -THRESHOLD_DB`, else `0`). -/
def offlineDirection (b : Block) : ℤ :=
  if offlineIld b > THRESHOLD_DB then -1
  else if offlineIld b < -THRESHOLD_DB then 1
  else 0

/-- The centre time of block `i` (src/analyze_offline.py line 92:
`time_block = (start_idx + BLOCK_SIZE / 2) / SAMPLE_RATE` with
`start_idx = i * BLOCK_SIZE`). -/
def blockTime (i : ℕ) : ℝ :=
  ((i * BLOCK_SIZE : ℕ) + (BLOCK_SIZE : ℝ) / 2) / SAMPLE_RATE

/-- The four result lists accumulated by the offline loop
(src/analyze_offline.py lines 48-51 and 92-96). -/
structure OfflineResults where
  block_times : List ℝ
  ild_values : List ℝ
  angle_values : List ℝ
  direction_values : List ℤ

/-- The offline loop body (src/analyze_offline.py lines 55-96), processing the
consecutive blocks of the recording starting at block index `i`: a silent
block (`total_energy < ENERGY_THRESHOLD`) is skipped with `continue`;
otherwise the block's time, ILD, angle and direction are appended. -/
def offlineLoop : List Block → ℕ → OfflineResults
  | [], _ => ⟨[], [], [], []⟩
  | b :: bs, i =>
      let rest := offlineLoop bs (i + 1)
      if offlineL b + offlineR b < ENERGY_THRESHOLD then rest
      else
        ⟨blockTime i :: rest.block_times,
         offlineIld b :: rest.ild_values,
         offlineAngle b :: rest.angle_values,
         offlineDirection b :: rest.direction_values⟩

/-- The blocks of a recording that the offline loop does not skip: those with
gained total energy at least `ENERGY_THRESHOLD`. -/
def keptBlocks (blocks : List Block) : List Block :=
  blocks.filter fun b => decide (ENERGY_THRESHOLD ≤ offlineL b + offlineR b)

/-! ### Tick sequences for the live path -/

/-- Run `feature_node_func` over a sequence of ticks, threading the
`last_feat` state; returns the per-tick returned features and the final
state. -/
def runFeature : List QueueRead → ℝ → List ℝ × ℝ
  | [], s => ([], s)
  | q :: qs, s =>
      let step := feature_node_func q s
      let rest := runFeature qs step.2
      (step.1 :: rest.1, rest.2)

/-- Per-tick (feature, angle) outputs of the live feature-plus-angle path:
`feature_node_func` followed by `ild_to_angle`, threading the `last_feat`
state; returns the per-tick pairs and the final state. -/
def runPipeline (qs : List QueueRead) (s : ℝ) : List (ℝ × ℝ) × ℝ :=
  let r := runFeature qs s
  (r.1.map fun f => (f, ild_to_angle f), r.2)

/-! ## Theorems -/

/-- Claim C1: for every stereo block obtained in a tick, `feature_node_func`
applies the per-channel gains, computes the per-channel mean-square energies
`L` and `R` (each with `eps = 1e-8` added); if `L + R ≥ ENERGY_THRESHOLD` it
returns `10*log10(L/R) + ILD_OFFSET` and stores that value as the new last
valid feature, and if `L + R < ENERGY_THRESHOLD` it returns the previous
valid feature unchanged. -/
theorem feature_node_func_block_spec (b : Block) (s : ℝ) :
    (ENERGY_THRESHOLD ≤ energyL b + energyR b →
      feature_node_func (.block b) s =
        (10 * Real.logb 10 (energyL b / energyR b) + ILD_OFFSET,
         10 * Real.logb 10 (energyL b / energyR b) + ILD_OFFSET))
    ∧ (energyL b + energyR b < ENERGY_THRESHOLD →
      feature_node_func (.block b) s = (s, s)) := by
  constructor
  · intro h
    simp only [feature_node_func, ildOf]
    rw [if_neg (not_lt.mpr h)]
  · intro h
    simp only [feature_node_func]
    rw [if_pos h]

/-- Witness for C1: the one-sample block `[(1, 1)]` has gained total energy
above the threshold, and `feature_node_func` on it returns and stores the ILD
formula value. -/
theorem feature_node_func_block_spec_witness :
    ENERGY_THRESHOLD ≤ energyL [(1, 1)] + energyR [(1, 1)]
    ∧ feature_node_func (.block [(1, 1)]) 0 =
        (10 * Real.logb 10 (energyL [(1, 1)] / energyR [(1, 1)]) + ILD_OFFSET,
         10 * Real.logb 10 (energyL [(1, 1)] / energyR [(1, 1)]) + ILD_OFFSET) := by
  have h : ENERGY_THRESHOLD ≤ energyL [(1, 1)] + energyR [(1, 1)] := by
    norm_num [energyL, energyR, meanSq, ENERGY_THRESHOLD, MAC_GAIN, IPHONE_GAIN]
  exact ⟨h, (feature_node_func_block_spec [(1, 1)] 0).1 h⟩

/-- Claim C2: `ild_to_angle ild` equals `clamp(ild, -40, 40) / 40 * 90`, its
result always lies in `[-90, 90]`, and `ild_to_angle 25 = 56.25`,
`ild_to_angle 0 = 0`, `ild_to_angle 41 = 90`. -/
theorem ild_to_angle_spec :
    (∀ ild : ℝ, ild_to_angle ild = max (-40) (min 40 ild) / 40 * 90
      ∧ -90 ≤ ild_to_angle ild ∧ ild_to_angle ild ≤ 90)
    ∧ ild_to_angle 25 = 56.25 ∧ ild_to_angle 0 = 0 ∧ ild_to_angle 41 = 90 := by
  have hbound : ∀ ild : ℝ, -90 ≤ ild_to_angle ild ∧ ild_to_angle ild ≤ 90 := by
    intro ild
    have h1 : (-40 : ℝ) ≤ max (-40.0) (min 40.0 ild) := by
      have := le_max_left (-40.0 : ℝ) (min 40.0 ild)
      linarith [this]
    have h2 : max (-40.0) (min 40.0 ild) ≤ 40 := by
      have hm : min 40.0 ild ≤ (40.0 : ℝ) := min_le_left _ _
      have := max_le (show (-40.0 : ℝ) ≤ 40.0 by norm_num) hm
      linarith [this]
    have hform : ild_to_angle ild = 9 / 4 * max (-40.0) (min 40.0 ild) := by
      unfold ild_to_angle; ring
    constructor
    · rw [hform]; linarith
    · rw [hform]; linarith
  refine ⟨fun ild => ⟨by norm_num [ild_to_angle], hbound ild⟩, ?_, ?_, ?_⟩
  · norm_num [ild_to_angle, min_def, max_def]
  · norm_num [ild_to_angle, min_def, max_def]
  · norm_num [ild_to_angle, min_def, max_def]

/-- Claim C3: if the queue yields no block for `k` consecutive ticks,
`feature_node_func` returns the identical value — the last valid feature `s` —
on all `k` ticks, and each individual call leaves the stored `last_feat`
state unchanged. -/
theorem feature_hold_on_empty (k : ℕ) (s : ℝ) :
    runFeature (List.replicate k .empty) s = (List.replicate k s, s)
    ∧ ∀ s' : ℝ, feature_node_func .empty s' = (s', s') := by
  refine ⟨?_, fun s' => rfl⟩
  induction k with
  | zero => rfl
  | succ n ih =>
      simp only [List.replicate_succ, runFeature, feature_node_func, ih]

/-- Claim C4, evaluated on the code: the two `nengo.Ensemble` calls that build
`on_neurons` and `off_neurons` pass identical parameters — in particular
neither passes the `encoders` or `intercepts` keyword argument, so no
`+1`/`-1` encoder restriction and no biased intercept distribution is
specified for either population, contradicting the claimed asymmetric
construction (the populations differ only in their labels).  The two
populations do receive identical input: the connection list contains an edge
from `ild_snn` to each with the same `synapse = 0.01` and no function. -/
theorem on_off_constructed_identically :
    on_neurons.encoders = none ∧ off_neurons.encoders = none
    ∧ on_neurons.intercepts = none ∧ off_neurons.intercepts = none
    ∧ on_neurons.n_neurons = off_neurons.n_neurons
    ∧ on_neurons.dimensions = off_neurons.dimensions
    ∧ on_neurons.neuron_type = off_neurons.neuron_type
    ∧ on_neurons.max_rates_lo = off_neurons.max_rates_lo
    ∧ on_neurons.max_rates_hi = off_neurons.max_rates_hi
    ∧ ¬ ((on_neurons.encoders = some Sign.positive
            ∧ off_neurons.encoders = some Sign.negative)
         ∨ (on_neurons.intercepts = some Sign.positive
            ∧ off_neurons.intercepts = some Sign.negative))
    ∧ modelConnections.get? 1 = some ⟨.ild_snn, .on_neurons, none, some 0.01⟩
    ∧ modelConnections.get? 2 = some ⟨.ild_snn, .off_neurons, none, some 0.01⟩ := by
  refine ⟨rfl, rfl, rfl, rfl, rfl, rfl, rfl, rfl, rfl, ?_, rfl, rfl⟩
  rintro (⟨h, -⟩ | ⟨h, -⟩) <;> simp [on_neurons] at h

/-- Claim C5, corrected: when the queue read comes up empty, the core
substitutes the last valid feature and continues (the call is a total
function returning `(s, s)`), but the only module-level mutable state touched
by `feature_node_func` — the global `last_feat`, modelled by `s` — is
unchanged on a gap, so the gap leaves no trace in the program state and no
diagnostics counter records it. -/
theorem gap_recovered_silently_no_counter (s : ℝ) :
    feature_node_func .empty s = (s, s) := rfl

/-- Counterexample to C5 as stated: there is no diagnostics counter — no
function of the module state that `feature_node_func` updates can increase by
one at each empty-queue gap, because a gap maps the state to itself.  (The
substitution part of the claim holds; the conjunction with an observable gap
counter is refuted.) -/
theorem gap_counter_impossible :
    ¬ ((∀ s : ℝ, feature_node_func .empty s = (s, s))
       ∧ ∃ counter : ℝ → ℕ, ∀ s : ℝ,
            counter (feature_node_func .empty s).2 = counter s + 1) := by
  rintro ⟨-, c, hc⟩
  have h := hc 0
  simp only [feature_node_func] at h
  omega

/-- Claim C6: the constructed network realizes exactly the pipeline
`feat_node → ild_snn → {on_neurons, off_neurons} → angle_snn → angle_output →
angle_xy`, with `ild_to_angle` as the function on the
`angle_snn → angle_output` connection and the identity (no function) on every
other connection. -/
theorem model_realizes_pipeline :
    modelConnections.map (fun c => (c.source, c.target)) =
      [(.feat_node, .ild_snn), (.ild_snn, .on_neurons), (.ild_snn, .off_neurons),
       (.on_neurons, .angle_snn), (.off_neurons, .angle_snn),
       (.angle_snn, .angle_output), (.angle_output, .angle_xy)]
    ∧ modelConnections.map Conn.func =
      [none, none, none, none, none, some ild_to_angle, none] :=
  ⟨rfl, rfl⟩

/-- Claim C7: the per-tick feature and angle computation is deterministic —
two runs of the live pipeline over the same queue-read sequence from the same
initial `last_feat` state, and two runs of the offline block loop over the
same block sequence, produce identical outputs. -/
theorem runs_deterministic (qs qs' : List QueueRead) (blocks blocks' : List Block)
    (s s' : ℝ) (i : ℕ) (hq : qs = qs') (hs : s = s') (hb : blocks = blocks') :
    runPipeline qs s = runPipeline qs' s'
    ∧ offlineLoop blocks i = offlineLoop blocks' i := by
  subst hq; subst hs; subst hb; exact ⟨rfl, rfl⟩

/-- Witness for C7 at a concrete one-tick run and a concrete block list. -/
theorem runs_deterministic_witness :
    [QueueRead.empty] = [QueueRead.empty] ∧ (0 : ℝ) = 0
    ∧ ([[(1, 1)]] : List Block) = [[(1, 1)]]
    ∧ runPipeline [QueueRead.empty] 0 = runPipeline [QueueRead.empty] 0
    ∧ offlineLoop [[(1, 1)]] 0 = offlineLoop [[(1, 1)]] 0 := by
  have h := runs_deterministic [QueueRead.empty] [QueueRead.empty]
    [[(1, 1)]] [[(1, 1)]] 0 0 0 rfl rfl rfl
  exact ⟨rfl, rfl, rfl, h.1, h.2⟩

/-- Claim C10: `feature_node_func` is total — every queue-read outcome
(empty queue, malformed block, well-formed block) yields a defined result
rather than an exception, the returned value always equals the post-call
last-valid-feature state, empty and malformed reads return the current state
unchanged, and a first call with an empty queue returns the initial
`last_feat` value `0.0`. -/
theorem feature_node_func_total :
    (∀ (q : QueueRead) (s : ℝ), (feature_node_func q s).1 = (feature_node_func q s).2)
    ∧ (∀ s : ℝ, feature_node_func .empty s = (s, s)
        ∧ feature_node_func .malformed s = (s, s))
    ∧ feature_node_func .empty last_feat_init = (last_feat_init, last_feat_init)
    ∧ last_feat_init = 0 := by
  refine ⟨?_, fun s => ⟨rfl, rfl⟩, rfl, by norm_num [last_feat_init]⟩
  intro q s
  cases q with
  | empty => rfl
  | malformed => rfl
  | block b =>
      simp only [feature_node_func]
      split <;> rfl

/-- Claim C8: on any block whose gained total energy reaches
`ENERGY_THRESHOLD`, the ILD and angle recorded by the offline loop equal
exactly what `feature_node_func` (from any `last_feat` state) and
`ild_to_angle` produce on the same block. -/
theorem offline_matches_live (b : Block) (s : ℝ)
    (h : ENERGY_THRESHOLD ≤ offlineL b + offlineR b) :
    (feature_node_func (.block b) s).1 = offlineIld b
    ∧ ild_to_angle (feature_node_func (.block b) s).1 = offlineAngle b := by
  have h' : ¬ energyL b + energyR b < ENERGY_THRESHOLD := not_lt.mpr h
  have h1 : (feature_node_func (.block b) s).1 = offlineIld b := by
    simp only [feature_node_func]
    rw [if_neg h']
    rfl
  exact ⟨h1, by rw [h1]; rfl⟩

/-- Witness for C8: the one-sample block `[(1, 1)]` is non-silent, and the
offline path agrees with the live path on it. -/
theorem offline_matches_live_witness :
    ENERGY_THRESHOLD ≤ offlineL [(1, 1)] + offlineR [(1, 1)]
    ∧ (feature_node_func (.block [(1, 1)]) 0).1 = offlineIld [(1, 1)]
    ∧ ild_to_angle (feature_node_func (.block [(1, 1)]) 0).1 = offlineAngle [(1, 1)] := by
  have h : ENERGY_THRESHOLD ≤ offlineL [(1, 1)] + offlineR [(1, 1)] := by
    norm_num [offlineL, offlineR, meanSq, ENERGY_THRESHOLD, MAC_GAIN, IPHONE_GAIN]
  exact ⟨h, (offline_matches_live [(1, 1)] 0 h).1, (offline_matches_live [(1, 1)] 0 h).2⟩

/-- Unfolding the offline loop on a silent block: the block is skipped. -/
theorem offlineLoop_cons_silent (b : Block) (bs : List Block) (i : ℕ)
    (hb : offlineL b + offlineR b < ENERGY_THRESHOLD) :
    offlineLoop (b :: bs) i = offlineLoop bs (i + 1) := by
  simp only [offlineLoop]
  rw [if_pos hb]

/-- Unfolding the offline loop on a non-silent block: time, ILD, angle and
direction are all recorded. -/
theorem offlineLoop_cons_loud (b : Block) (bs : List Block) (i : ℕ)
    (hb : ENERGY_THRESHOLD ≤ offlineL b + offlineR b) :
    offlineLoop (b :: bs) i =
      ⟨blockTime i :: (offlineLoop bs (i + 1)).block_times,
       offlineIld b :: (offlineLoop bs (i + 1)).ild_values,
       offlineAngle b :: (offlineLoop bs (i + 1)).angle_values,
       offlineDirection b :: (offlineLoop bs (i + 1)).direction_values⟩ := by
  simp only [offlineLoop]
  rw [if_neg (not_lt.mpr hb)]

/-- `keptBlocks` drops a silent head block and keeps a non-silent one. -/
theorem keptBlocks_cons (b : Block) (bs : List Block) :
    (offlineL b + offlineR b < ENERGY_THRESHOLD →
      keptBlocks (b :: bs) = keptBlocks bs)
    ∧ (ENERGY_THRESHOLD ≤ offlineL b + offlineR b →
      keptBlocks (b :: bs) = b :: keptBlocks bs) := by
  constructor
  · intro hb
    simp only [keptBlocks, List.filter_cons]
    rw [decide_eq_false (not_le.mpr hb)]
    simp
  · intro hb
    simp only [keptBlocks, List.filter_cons]
    rw [decide_eq_true hb]
    simp

/-- The recorded direction is always `-1`, `0` or `+1`. -/
theorem offlineDirection_cases (b : Block) :
    offlineDirection b = -1 ∨ offlineDirection b = 0 ∨ offlineDirection b = 1 := by
  unfold offlineDirection
  split
  · exact Or.inl rfl
  · split
    · exact Or.inr (Or.inr rfl)
    · exact Or.inr (Or.inl rfl)

/-- Claim C9: after the offline loop processes any recording, the four result
lists have equal length; the ILD, angle and direction lists are exactly the
per-block values over the non-silent blocks (so silent blocks contribute no
entry — they are skipped, not held); and every direction entry is `-1`, `0`
or `+1`. -/
theorem offline_results_invariants (blocks : List Block) (i : ℕ) :
    ((offlineLoop blocks i).block_times.length = (keptBlocks blocks).length
      ∧ (offlineLoop blocks i).ild_values = (keptBlocks blocks).map offlineIld
      ∧ (offlineLoop blocks i).angle_values = (keptBlocks blocks).map offlineAngle
      ∧ (offlineLoop blocks i).direction_values = (keptBlocks blocks).map offlineDirection)
    ∧ ((offlineLoop blocks i).direction_values.all
        fun d => d == -1 || d == 0 || d == 1) = true := by
  induction blocks generalizing i with
  | nil =>
      exact ⟨⟨rfl, rfl, rfl, rfl⟩, rfl⟩
  | cons b bs ih =>
      rcases lt_or_le (offlineL b + offlineR b) ENERGY_THRESHOLD with hb | hb
      · rw [offlineLoop_cons_silent b bs i hb, (keptBlocks_cons b bs).1 hb]
        exact ih (i + 1)
      · rw [offlineLoop_cons_loud b bs i hb, (keptBlocks_cons b bs).2 hb]
        obtain ⟨⟨hlen, hild, hang, hdir⟩, hall⟩ := ih (i + 1)
        refine ⟨⟨?_, ?_, ?_, ?_⟩, ?_⟩
        · simpa using hlen
        · simpa using hild
        · simpa using hang
        · simpa using hdir
        · simp only [List.all_cons, hall, Bool.and_true]
          rcases offlineDirection_cases b with h | h | h <;> simp [h]

end

end SoundLoc
